import Mathlib

set_option maxRecDepth 1000000

/-!
Shallow embedding of the spec-sanitization and naming logic of the
`app_action` repository (source file `src/unnamed/part_001`, package
`utils`).  Go strings are modelled at the character level (`String` /
`List Char`); `len` and slicing coincide with the Go byte-level
operations on ASCII data, and the SHA-256 input is the UTF-8 byte
sequence of the string, exactly as `[]byte(s)` produces in Go.
-/

namespace AppAction

/-! ### 32-bit word arithmetic (values kept below 2^32 via explicit mod) -/

def add32 (a b : Nat) : Nat := (a + b) % 4294967296

def rotr32 (x n : Nat) : Nat := ((x >>> n) ||| (x <<< (32 - n))) % 4294967296

def bsig0 (x : Nat) : Nat := rotr32 x 2 ^^^ rotr32 x 13 ^^^ rotr32 x 22

def bsig1 (x : Nat) : Nat := rotr32 x 6 ^^^ rotr32 x 11 ^^^ rotr32 x 25

def ssig0 (x : Nat) : Nat := rotr32 x 7 ^^^ rotr32 x 18 ^^^ (x >>> 3)

def ssig1 (x : Nat) : Nat := rotr32 x 17 ^^^ rotr32 x 19 ^^^ (x >>> 10)

def chWord (x y z : Nat) : Nat := (x &&& y) ^^^ ((x ^^^ 4294967295) &&& z)

def majWord (x y z : Nat) : Nat := (x &&& y) ^^^ (x &&& z) ^^^ (y &&& z)

/-! ### SHA-256 (crypto/sha256), producing the 32-byte digest -/

structure Hash8 where
  a : Nat
  b : Nat
  c : Nat
  d : Nat
  e : Nat
  f : Nat
  g : Nat
  h : Nat
deriving Repr, DecidableEq

def initH : Hash8 :=
  ⟨1779033703, 3144134277, 1013904242, 2773480762,
   1359893119, 2600822924, 528734635, 1541459225⟩

def K256 : List Nat :=
  [1116352408, 1899447441, 3049323471, 3921009573, 961987163, 1508970993, 2453635748, 2870763221,
   3624381080, 310598401, 607225278, 1426881987, 1925078388, 2162078206, 2614888103, 3248222580,
   3835390401, 4022224774, 264347078, 604807628, 770255983, 1249150122, 1555081692, 1996064986,
   2554220882, 2821834349, 2952996808, 3210313671, 3336571891, 3584528711, 113926993, 338241895,
   666307205, 773529912, 1294757372, 1396182291, 1695183700, 1986661051, 2177026350, 2456956037,
   2730485921, 2820302411, 3259730800, 3345764771, 3516065817, 3600352804, 4094571909, 275423344,
   430227734, 506948616, 659060556, 883997877, 958139571, 1322822218, 1537002063, 1747873779,
   1955562222, 2024104815, 2227730452, 2361852424, 2428436474, 2756734187, 3204031479, 3329325298]

/-- Big-endian 32-bit words from a byte list (any trailing partial group is dropped;
the input is always a 64-byte block, so this never happens). -/
def bytesToWords : List Nat → List Nat
  | b0 :: b1 :: b2 :: b3 :: rest =>
      (((b0 * 256 + b1) * 256 + b2) * 256 + b3) :: bytesToWords rest
  | _ => []

/-- One message-schedule extension step.  The accumulator holds the schedule in
reverse order (newest word first), so the words w[i-2], w[i-7], w[i-15], w[i-16]
sit at positions 1, 6, 14, 15. -/
def extendStep (w : List Nat) : List Nat :=
  add32 (add32 (ssig1 (w.getD 1 0)) (w.getD 6 0))
        (add32 (ssig0 (w.getD 14 0)) (w.getD 15 0)) :: w

/-- The 64-word message schedule from the 16 block words. -/
def schedule (w16 : List Nat) : List Nat :=
  ((List.range 48).foldl (fun w _ => extendStep w) w16.reverse).reverse

def sha256Round (st : Hash8) (k w : Nat) : Hash8 :=
  let t1 := add32 (add32 (add32 st.h (bsig1 st.e)) (add32 (chWord st.e st.f st.g) k)) w
  let t2 := add32 (bsig0 st.a) (majWord st.a st.b st.c)
  ⟨add32 t1 t2, st.a, st.b, st.c, add32 st.d t1, st.e, st.f, st.g⟩

def compress (st : Hash8) (block : List Nat) : Hash8 :=
  let w := schedule (bytesToWords block)
  let fin := (K256.zip w).foldl (fun s kw => sha256Round s kw.1 kw.2) st
  ⟨add32 st.a fin.a, add32 st.b fin.b, add32 st.c fin.c, add32 st.d fin.d,
   add32 st.e fin.e, add32 st.f fin.f, add32 st.g fin.g, add32 st.h fin.h⟩

/-- Process the 64-byte blocks of `l`, one `compress` per block.  The first
argument is structural fuel (each step consumes at least one byte, so any
fuel at least `l.length` is enough); structural recursion keeps the
function kernel-reducible. -/
def sha256Blocks : Nat → Hash8 → List Nat → Hash8
  | _, st, [] => st
  | 0, st, _ :: _ => st
  | n + 1, st, c :: rest =>
      sha256Blocks n (compress st (List.take 64 (c :: rest))) (List.drop 64 (c :: rest))

def lenBytes8 (n : Nat) : List Nat :=
  [(n >>> 56) % 256, (n >>> 48) % 256, (n >>> 40) % 256, (n >>> 32) % 256,
   (n >>> 24) % 256, (n >>> 16) % 256, (n >>> 8) % 256, n % 256]

/-- Merkle–Damgård padding: 0x80, zeros to 56 mod 64, 8-byte big-endian bit length. -/
def padMessage (msg : List Nat) : List Nat :=
  msg ++ 128 :: (List.replicate ((119 - msg.length % 64) % 64) 0
         ++ lenBytes8 ((msg.length * 8) % 18446744073709551616))

def wordBytes (w : Nat) : List Nat :=
  [(w >>> 24) % 256, (w >>> 16) % 256, (w >>> 8) % 256, w % 256]

def sha256 (msg : List Nat) : List Nat :=
  let padded := padMessage msg
  let fin := sha256Blocks padded.length initH padded
  wordBytes fin.a ++ wordBytes fin.b ++ wordBytes fin.c ++ wordBytes fin.d ++
  wordBytes fin.e ++ wordBytes fin.f ++ wordBytes fin.g ++ wordBytes fin.h

/-! ### Bytes and hex encoding -/

/-- UTF-8 encoding of one character, as Go `[]byte(string)` produces. -/
def utf8EncodeChar (c : Char) : List Nat :=
  let n := c.toNat
  if n < 128 then [n]
  else if n < 2048 then [192 + n / 64, 128 + n % 64]
  else if n < 65536 then [224 + n / 4096, 128 + (n / 64) % 64, 128 + n % 64]
  else [240 + n / 262144, 128 + (n / 4096) % 64, 128 + (n / 64) % 64, 128 + n % 64]

def strBytes (s : String) : List Nat := s.data.flatMap utf8EncodeChar

def hexDigit (n : Nat) : Char :=
  if n < 10 then Char.ofNat (48 + n) else Char.ofNat (87 + n)

/-- encoding/hex lower-case hexadecimal encoding of a byte list. -/
def hexEncode (bytes : List Nat) : String :=
  String.mk (bytes.flatMap fun b => [hexDigit (b / 16), hexDigit (b % 16)])

/-! ### GenerateAppName (src/unnamed/part_001 lines 67-89) -/

/-- The strings.NewReplacer("/", "-", ":", "", "_", "-", ".", "-") step, per
character (all patterns are single characters, so the replacer is a
character-wise map). -/
def replaceNameChar (c : Char) : List Char :=
  if c = '/' then ['-']
  else if c = ':' then []
  else if c = '_' then ['-']
  else if c = '.' then ['-']
  else [c]

/-- strings.ToLower then the four-way replacement, as applied to the joined
base name.  ASCII case mapping, which agrees with Go on ASCII input. -/
def normalizeBaseName (s : String) : String :=
  String.mk ((s.data.map Char.toLower).flatMap replaceNameChar)

/-- The tail of GenerateAppName after the base name has been normalized:
hash suffix, truncation budget, concatenation. -/
def generateFromBase (baseName : String) : String :=
  let suffix := "-" ++ String.mk ((hexEncode (sha256 (strBytes baseName))).data.take 8)
  let limit := min baseName.length (32 - suffix.length)
  String.mk (baseName.data.take limit) ++ suffix

/-- GenerateAppName generates a unique app name based on the repoOwner, repo, and ref
(src/unnamed/part_001 lines 67-89).  The Go `limit := 32 - len(suffix); if len(baseName) < limit`
computation is exactly `min baseName.length (32 - suffix.length)`. -/
def GenerateAppName (repoOwner repo ref : String) : String :=
  generateFromBase (normalizeBaseName (repoOwner ++ "-" ++ repo ++ "-" ++ ref))

/-! ### Event payload and GitHub context -/

/-- A generically-parsed JSON event value (Go: nested `map[string]any`).
JSON numbers arrive in Go as `float64` and are only ever consumed through
the truncation `int(num)`; the model stores that truncated integer
directly. -/
inductive EventValue where
  | num (n : Int)
  | str (s : String)
  | obj (fields : List (String × EventValue))
  | other
deriving Repr

/-- The identity context consumed from the external event-context
collaborator: `ghCtx.Repo()` yields (repoOwner, repo), plus the raw
`HeadRef` and the generic `Event` payload. -/
structure GitHubContext where
  repoOwner : String
  repo : String
  headRef : String
  event : List (String × EventValue)
deriving Repr

/-- Go map lookup `m[key]` (keys are unique in a map). -/
def lookupField : List (String × EventValue) → String → Option EventValue
  | [], _ => none
  | (k, v) :: rest, key => if k = key then some v else lookupField rest key

/-- The two failure kinds of PRRefFromContext: the `pull_request` object is
absent (or not an object), or its `number` field is absent (or not numeric). -/
inductive RefError where
  | missingField
  | missingPRNumber
deriving Repr, DecidableEq

/-- PRRefFromContext (src/unnamed/part_001 lines 141-152): extracts the PR
number from the event and formats `"<n>/merge"`. -/
def PRRefFromContext (ctx : GitHubContext) : Except RefError String :=
  match lookupField ctx.event "pull_request" with
  | some (EventValue.obj prFields) =>
      match lookupField prFields "number" with
      | some (EventValue.num n) => Except.ok (toString n ++ "/merge")
      | _ => Except.error RefError.missingPRNumber
  | _ => Except.error RefError.missingField

/-! ### App specification data model (godo, as consumed by this code) -/

structure GitHubSourceSpec where
  repo : String
  branch : String
  deployOnPush : Bool
deriving Repr, DecidableEq

/-- A buildable component (service / worker / job / function), modelled
uniformly through the capability the code uses: a gettable/settable
optional GitHub source reference. -/
structure AppComponentSpec where
  name : String
  github : Option GitHubSourceSpec
deriving Repr, DecidableEq

structure AppDomainSpec where
  domain : String
deriving Repr, DecidableEq

structure AppAlertSpec where
  value : Int
deriving Repr, DecidableEq

/-- The app spec; `domains = none` / `alerts = none` model Go nil slices
(the code distinguishes nil from non-nil via `spec.Domains != nil`). -/
structure AppSpec where
  name : String
  domains : Option (List AppDomainSpec)
  alerts : Option (List AppAlertSpec)
  services : List AppComponentSpec
  workers : List AppComponentSpec
  jobs : List AppComponentSpec
  functions : List AppComponentSpec
deriving Repr, DecidableEq

/-! ### SubstituteDomainTokens (src/unnamed/part_001 lines 93-135) -/

def isDNSChar (c : Char) : Bool :=
  ('a' ≤ c && c ≤ 'z') || ('0' ≤ c && c ≤ '9') || c == '-'

/-- The strings.NewReplacer("/", "-", "_", "-", ".", "-") step of the branch
sanitization (single-character patterns, hence a character map). -/
def replaceDomainChar (c : Char) : Char :=
  if c = '/' then '-' else if c = '_' then '-' else if c = '.' then '-' else c

/-- strings.Trim(s, "-"): drop leading and trailing hyphens. -/
def trimHyphens (l : List Char) : List Char :=
  ((l.dropWhile (· == '-')).reverse.dropWhile (· == '-')).reverse

/-- The branch sanitization of lines 107-121: lower-case, replace `/ _ .`
with `-`, strip everything outside [a-z0-9-], truncate to 63, trim hyphens. -/
def sanitizeBranchForDomain (branchName : String) : String :=
  let lowered := branchName.data.map Char.toLower
  let replaced := lowered.map replaceDomainChar
  let filtered := replaced.filter isDNSChar
  let truncated := if filtered.length > 63 then filtered.take 63 else filtered
  String.mk (trimHyphens truncated)

/-- One left-to-right pass of
strings.NewReplacer("\x7bBRANCH}", branch, "\x7bPR_NUMBER}", prNumber, "\x7bREPO}", repo, "\x7bOWNER}", owner):
at each position the first matching pattern is replaced and scanning resumes
after the match (emitted replacement text is never rescanned).  The `Nat`
argument is structural fuel; every step consumes at least one input
character, so fuel `l.length` suffices and the fuel-exhausted case is
unreachable. -/
def applyTokens (branch prNumber repo owner : String) : Nat → List Char → List Char
  | _, [] => []
  | 0, l => l
  | n + 1, c :: rest =>
      if List.isPrefixOf "{BRANCH}".data (c :: rest) then
        branch.data ++ applyTokens branch prNumber repo owner n (List.drop 8 (c :: rest))
      else if List.isPrefixOf "{PR_NUMBER}".data (c :: rest) then
        prNumber.data ++ applyTokens branch prNumber repo owner n (List.drop 11 (c :: rest))
      else if List.isPrefixOf "{REPO}".data (c :: rest) then
        repo.data ++ applyTokens branch prNumber repo owner n (List.drop 6 (c :: rest))
      else if List.isPrefixOf "{OWNER}".data (c :: rest) then
        owner.data ++ applyTokens branch prNumber repo owner n (List.drop 7 (c :: rest))
      else c :: applyTokens branch prNumber repo owner n rest

def replaceAllTokens (branch prNumber repo owner : String) (s : String) : String :=
  String.mk (applyTokens branch prNumber repo owner s.data.length s.data)

/-- The prNumber computation of lines 99-104: empty string when the number
is absent or not numeric (not an error). -/
def prNumberString (ctx : GitHubContext) : String :=
  match lookupField ctx.event "pull_request" with
  | some (EventValue.obj prFields) =>
      match lookupField prFields "number" with
      | some (EventValue.num n) => toString n
      | _ => ""
  | _ => ""

/-- SubstituteDomainTokens (lines 93-135).  The Go function returns an
`error` that is nil on every path; the `Except` result mirrors that
signature (every `return nil` becomes `Except.ok`). -/
def SubstituteDomainTokens (spec : AppSpec) (ctx : GitHubContext) : Except String AppSpec :=
  match spec.domains with
  | none => Except.ok spec
  | some domains =>
      let safeBranchName := sanitizeBranchForDomain ctx.headRef
      let prNumber := prNumberString ctx
      Except.ok { spec with domains := some (domains.map fun d =>
        { domain := replaceAllTokens safeBranchName prNumber ctx.repo ctx.repoOwner d.domain }) }

/-! ### SanitizeSpecForPullRequestPreview (src/unnamed/part_001 lines 21-64) -/

/-- The per-component callback of lines 41-52.  Its Go signature returns an
`error`, but every path is `return nil`; the `Except` result mirrors that. -/
def sanitizeComponent (repoOwner repo headRef : String) (c : AppComponentSpec) :
    Except String AppComponentSpec :=
  match c.github with
  | none => Except.ok c
  | some ref =>
      if ref.repo ≠ repoOwner ++ "/" ++ repo then Except.ok c
      else Except.ok { c with
        github := some ({ ref with deployOnPush := false, branch := headRef }) }

/-- godo.ForEachAppSpecComponent over the four buildable-component lists,
visiting services, workers, jobs, functions in order and stopping at the
first callback error. -/
def forEachComponents (f : AppComponentSpec → Except String AppComponentSpec)
    (spec : AppSpec) : Except String AppSpec := do
  let services ← spec.services.mapM f
  let workers ← spec.workers.mapM f
  let jobs ← spec.jobs.mapM f
  let functions ← spec.functions.mapM f
  Except.ok { spec with services := services, workers := workers,
                        jobs := jobs, functions := functions }

/-- The three error-wrapping shapes of SanitizeSpecForPullRequestPreview. -/
inductive SanitizeError where
  | identityResolution (e : RefError)
  | componentTraversal (msg : String)
  | tokenSubstitution (msg : String)
deriving Repr, DecidableEq

/-- SanitizeSpecForPullRequestPreview (lines 21-64).  The Go function
mutates `spec` in place and returns an `error`; the model passes the spec
state explicitly and returns the final state together with the optional
error.  The two non-identity error branches are unreachable (their
callbacks never fail; proved below); the state they would return is the
state at the point of failure. -/
def SanitizeSpecForPullRequestPreview (spec : AppSpec) (ctx : GitHubContext)
    (preserveDomains : Bool) : AppSpec × Option SanitizeError :=
  match PRRefFromContext ctx with
  | Except.error e => (spec, some (SanitizeError.identityResolution e))
  | Except.ok prRef =>
      let spec1 := { spec with name := GenerateAppName ctx.repoOwner ctx.repo prRef }
      let spec2 := if preserveDomains then spec1 else { spec1 with domains := none }
      let spec3 := { spec2 with alerts := none }
      match forEachComponents (sanitizeComponent ctx.repoOwner ctx.repo ctx.headRef) spec3 with
      | Except.error msg => (spec3, some (SanitizeError.componentTraversal msg))
      | Except.ok spec4 =>
          if preserveDomains && spec4.domains.isSome then
            match SubstituteDomainTokens spec4 ctx with
            | Except.error msg => (spec4, some (SanitizeError.tokenSubstitution msg))
            | Except.ok spec5 => (spec5, none)
          else (spec4, none)

/-! ### Definitions written from the spec's words, for the refinement claims -/

/-- From the spec (derive-name step 2): replace `/`, `_`, `.` with `-`;
remove `:` entirely; no other filtering. -/
def specReplaceChar (c : Char) : List Char :=
  if c = '/' ∨ c = '_' ∨ c = '.' then ['-']
  else if c = ':' then []
  else [c]

/-- From the spec (derive-name steps 1-2): lower-case the hyphen-joined
string, then apply the four substitutions. -/
def specNormalize (s : String) : String :=
  String.mk ((s.data.map Char.toLower).flatMap specReplaceChar)

/-- From the spec (derive-name steps 1-5): normalized base, 9-character
suffix of a hyphen plus the first 8 lower-case-hex SHA-256 characters of
the normalized string, truncation of the base to min(len, 32 - 9 = 23)
characters, concatenation. -/
def specDeriveName (owner repo ref : String) : String :=
  let normalized := specNormalize (owner ++ "-" ++ repo ++ "-" ++ ref)
  let suffix := "-" ++ String.mk ((hexEncode (sha256 (strBytes normalized))).data.take 8)
  String.mk (normalized.data.take (min normalized.length 23)) ++ suffix

/-- From the spec (sanitize-branch-for-domain): lower-case; replace
`/ _ .` with `-`; remove every character outside [a-z0-9-]; truncate to
63 characters; then trim leading/trailing hyphens. -/
def specSanitizeBranch (rawBranch : String) : String :=
  let step1 := rawBranch.data.map Char.toLower
  let step2 := step1.map (fun c => if c = '/' ∨ c = '_' ∨ c = '.' then '-' else c)
  let step3 := step2.filter isDNSChar
  let step4 := step3.take 63
  String.mk (trimHyphens step4)

/-! ### Statement-support definitions -/

def isHexChar (c : Char) : Bool :=
  ('0' ≤ c && c ≤ '9') || ('a' ≤ c && c ≤ 'f')

/-- Decidable matcher for the anchored regular expression
`^[a-z0-9-]+-[0-9a-f]\x7b8\x7d$`: at least 10 characters, the last 8 are
lower-case hex, the one before them is `-`, everything before that is a
nonempty run of `[a-z0-9-]` characters. -/
def matchesNameFormat (s : String) : Bool :=
  let l := s.data
  let n := l.length
  decide (10 ≤ n) && (List.take (n - 9) l).all isDNSChar
    && (List.getD l (n - 9) ' ' == '-') && (List.drop (n - 8) l).all isHexChar

/-- The final 8 characters of a generated app name: its hex hash suffix. -/
def appNameHashSuffix (s : String) : String :=
  String.mk (s.data.drop (s.data.length - 8))

/-- Input characters for which the normalization of GenerateAppName lands
inside [a-z0-9-]: ASCII letters, digits, and the five characters the
normalization itself handles. -/
def isNameInputChar (c : Char) : Bool :=
  ('a' ≤ c && c ≤ 'z') || ('A' ≤ c && c ≤ 'Z') || ('0' ≤ c && c ≤ '9') ||
  c == '-' || c == '/' || c == '_' || c == '.' || c == ':'

/-- The pure value computed by the per-component callback (which always
returns it under `Except.ok`). -/
def sanitizeComponentF (repoOwner repo headRef : String) (c : AppComponentSpec) :
    AppComponentSpec :=
  match c.github with
  | none => c
  | some ref =>
      if ref.repo ≠ repoOwner ++ "/" ++ repo then c
      else { c with github := some ({ ref with deployOnPush := false, branch := headRef }) }

/-- Claim C2's per-component relation between an input component and the
corresponding output component. -/
def componentSanitized (repoOwner repo headRef : String) (c c' : AppComponentSpec) : Prop :=
  match c.github with
  | none => c' = c
  | some ref =>
      if ref.repo = repoOwner ++ "/" ++ repo then
        ∃ ref', c'.github = some ref' ∧ ref'.deployOnPush = false ∧ ref'.branch = headRef
      else c' = c

/-- The pure value computed by SubstituteDomainTokens (which always
returns it under `Except.ok`). -/
def substF (spec : AppSpec) (ctx : GitHubContext) : AppSpec :=
  match spec.domains with
  | none => spec
  | some domains =>
      { spec with domains := some (domains.map fun d =>
        { domain := replaceAllTokens (sanitizeBranchForDomain ctx.headRef)
            (prNumberString ctx) ctx.repo ctx.repoOwner d.domain }) }

/-! ### Concrete fixtures (mirroring the repository's own test data) -/

def testSpec : AppSpec :=
  { name := "foo",
    domains := some [⟨"foo.com"⟩],
    alerts := some [⟨80⟩],
    services := [⟨"web", some ⟨"foo/bar", "main", true⟩⟩,
                 ⟨"web2", some ⟨"another/repo", "main", true⟩⟩],
    workers := [⟨"worker", some ⟨"foo/bar", "main", true⟩⟩],
    jobs := [⟨"job", some ⟨"foo/bar", "main", true⟩⟩],
    functions := [⟨"function", some ⟨"foo/bar", "main", true⟩⟩] }

def testCtx : GitHubContext :=
  { repoOwner := "foo", repo := "bar", headRef := "feature-branch",
    event := [("pull_request", EventValue.obj [("number", EventValue.num 3)])] }

/-- The expected result of sanitizing testSpec in testCtx with
preserveDomains = false, mirroring the repository's own test expectation
(name generated from "foo-bar-3-merge" plus hash suffix). -/
def sanitizedTestSpec : AppSpec :=
  { name := "foo-bar-3-merge-adb46530",
    domains := none,
    alerts := none,
    services := [⟨"web", some ⟨"foo/bar", "feature-branch", false⟩⟩,
                 ⟨"web2", some ⟨"another/repo", "main", true⟩⟩],
    workers := [⟨"worker", some ⟨"foo/bar", "feature-branch", false⟩⟩],
    jobs := [⟨"job", some ⟨"foo/bar", "feature-branch", false⟩⟩],
    functions := [⟨"function", some ⟨"foo/bar", "feature-branch", false⟩⟩] }

/-- A context whose event payload lacks the pull_request object. -/
def noPRCtx : GitHubContext :=
  { repoOwner := "foo", repo := "bar", headRef := "feature-branch",
    event := [("action", EventValue.str "opened")] }

/-- A context whose pull_request object lacks a numeric number field. -/
def noNumberCtx : GitHubContext :=
  { repoOwner := "foo", repo := "bar", headRef := "feature-branch",
    event := [("pull_request", EventValue.obj [("number", EventValue.str "3")])] }

/-- The spec's token-substitution example: one domain with tokens. -/
def tokenSpec : AppSpec :=
  { name := "app", domains := some [⟨"{BRANCH}.{OWNER}-{REPO}.example.com"⟩],
    alerts := none, services := [], workers := [], jobs := [], functions := [] }

def tokenCtx : GitHubContext :=
  { repoOwner := "foo", repo := "bar", headRef := "Feature/Test_1.0",
    event := [("pull_request", EventValue.obj [("number", EventValue.num 3)])] }

/-- A spec whose single domain uses the PR-number token. -/
def prNumSpec : AppSpec :=
  { name := "x", domains := some [⟨"{PR_NUMBER}x"⟩], alerts := none,
    services := [], workers := [], jobs := [], functions := [] }

/-- A context whose owner string is itself a token literal, and a spec
whose domain mentions the owner token: substituting once and then again
changes the domain a second time. -/
def retokenSpec : AppSpec :=
  { name := "x", domains := some [⟨"{OWNER}"⟩], alerts := none,
    services := [], workers := [], jobs := [], functions := [] }

def retokenCtx : GitHubContext :=
  { repoOwner := "{REPO}", repo := "z", headRef := "h",
    event := [("pull_request", EventValue.obj [("number", EventValue.num 1)])] }

/-! ### Helper lemmas -/

theorem wordBytes_lt (w : Nat) : ∀ b ∈ wordBytes w, b < 256 := by
  intro b hb
  simp only [wordBytes, List.mem_cons, List.not_mem_nil, or_false] at hb
  rcases hb with rfl | rfl | rfl | rfl <;> exact Nat.mod_lt _ (by norm_num)

theorem sha256_length (msg : List Nat) : (sha256 msg).length = 32 := by
  simp [sha256, wordBytes]

theorem sha256_lt (msg : List Nat) : ∀ b ∈ sha256 msg, b < 256 := by
  intro b hb
  simp only [sha256, List.mem_append] at hb
  rcases hb with ((((((h | h) | h) | h) | h) | h) | h) | h <;> exact wordBytes_lt _ _ h

theorem hexEncode_data_length (bytes : List Nat) :
    (hexEncode bytes).data.length = 2 * bytes.length := by
  induction bytes with
  | nil => rfl
  | cons b rest ih =>
      simp only [hexEncode, List.flatMap_cons, List.length_append] at *
      simp [ih]
      omega

theorem hexDigit_isHexChar (n : Nat) (h : n < 16) : isHexChar (hexDigit n) = true := by
  interval_cases n <;> decide

theorem hexEncode_chars (bytes : List Nat) (hb : ∀ b ∈ bytes, b < 256) :
    ∀ c ∈ (hexEncode bytes).data, isHexChar c = true := by
  intro c hc
  simp only [hexEncode] at hc
  rw [List.mem_flatMap] at hc
  obtain ⟨b, hbmem, hcmem⟩ := hc
  have hblt := hb b hbmem
  simp only [List.mem_cons, List.not_mem_nil, or_false] at hcmem
  rcases hcmem with rfl | rfl
  · exact hexDigit_isHexChar _ (by omega)
  · exact hexDigit_isHexChar _ (Nat.mod_lt _ (by norm_num))

theorem replaceNameChar_eq_spec (c : Char) : replaceNameChar c = specReplaceChar c := by
  simp only [replaceNameChar, specReplaceChar]
  by_cases h1 : c = '/' <;> by_cases h2 : c = ':' <;> by_cases h3 : c = '_' <;>
    by_cases h4 : c = '.' <;> simp_all

theorem normalizeBaseName_eq_spec (s : String) : normalizeBaseName s = specNormalize s := by
  unfold normalizeBaseName specNormalize
  rw [funext replaceNameChar_eq_spec]

theorem generateFromBase_data (b : String) :
    (generateFromBase b).data =
      b.data.take (min b.length 23) ++ '-' :: (hexEncode (sha256 (strBytes b))).data.take 8 := by
  have h1 := hexEncode_data_length (sha256 (strBytes b))
  have h2 := sha256_length (strBytes b)
  have hlen : ("-" ++ String.mk ((hexEncode (sha256 (strBytes b))).data.take 8)).length = 9 := by
    show (("-" ++ String.mk ((hexEncode (sha256 (strBytes b))).data.take 8)).data).length = 9
    rw [String.data_append, List.length_append, List.length_take, h1, h2]
    decide
  show (String.mk (b.data.take (min b.length
      (32 - ("-" ++ String.mk ((hexEncode (sha256 (strBytes b))).data.take 8)).length)))
      ++ ("-" ++ String.mk ((hexEncode (sha256 (strBytes b))).data.take 8))).data = _
  rw [hlen, String.data_append, String.data_append]
  rfl

theorem suffix_length (b : String) :
    ("-" ++ String.mk ((hexEncode (sha256 (strBytes b))).data.take 8)).length = 9 := by
  show (("-" ++ String.mk ((hexEncode (sha256 (strBytes b))).data.take 8)).data).length = 9
  rw [String.data_append, List.length_append, List.length_take,
      hexEncode_data_length, sha256_length]
  decide

theorem generateFromBase_eq_specTail (b : String) :
    generateFromBase b =
      String.mk (b.data.take (min b.length 23)) ++
        ("-" ++ String.mk ((hexEncode (sha256 (strBytes b))).data.take 8)) := by
  show String.mk (b.data.take (min b.length
      (32 - ("-" ++ String.mk ((hexEncode (sha256 (strBytes b))).data.take 8)).length)))
      ++ ("-" ++ String.mk ((hexEncode (sha256 (strBytes b))).data.take 8)) = _
  rw [suffix_length b]

/-- C1: for every owner, repo and ref, GenerateAppName returns exactly the
string obtained by lower-casing the hyphen-joined owner-repo-ref,
replacing `/ _ .` with `-` and deleting `:` (no other filtering), forming
the 9-character suffix of a hyphen plus the first 8 lower-case-hex SHA-256
characters of the normalized string, truncating the normalized base to
min(len, 23) characters (trailing hyphen kept), and concatenating; and the
result length is always at most 32. -/
theorem generateAppName_refines_spec (repoOwner repo ref : String) :
    GenerateAppName repoOwner repo ref = specDeriveName repoOwner repo ref ∧
    (GenerateAppName repoOwner repo ref).length ≤ 32 := by
  constructor
  · unfold GenerateAppName specDeriveName
    rw [normalizeBaseName_eq_spec]
    exact generateFromBase_eq_specTail _
  · show (GenerateAppName repoOwner repo ref).data.length ≤ 32
    unfold GenerateAppName
    rw [generateFromBase_data]
    simp only [List.length_append, List.length_cons, List.length_take]
    omega

/-! ### Character-level facts about the normalization -/

theorem toNat_ofNat_valid (n : Nat) (h : n < 55296) : (Char.ofNat n).toNat = n := by
  rw [Char.ofNat, dif_pos (Or.inl h)]
  rfl

theorem toLower_eq_self (d : Char) (h : ¬(65 ≤ d.toNat ∧ d.toNat ≤ 90)) :
    Char.toLower d = d := by
  simp only [Char.toLower]
  rw [if_neg h]

theorem toLower_upper (d : Char) (h1 : 65 ≤ d.toNat) (h2 : d.toNat ≤ 90) :
    Char.toLower d = Char.ofNat (d.toNat + 32) := by
  simp only [Char.toLower]
  rw [if_pos ⟨h1, h2⟩]

theorem replaceNameChar_eq_self (d : Char) (h1 : 48 ≤ d.toNat) (h2 : d.toNat ≤ 122)
    (h3 : d.toNat ≠ 95) (h4 : d.toNat ≠ 58) : replaceNameChar d = [d] := by
  have hA : ¬ d = '/' := fun he => by
    have h := congrArg Char.toNat he
    rw [show ('/' : Char).toNat = 47 from rfl] at h
    omega
  have hB : ¬ d = ':' := fun he => by
    have h := congrArg Char.toNat he
    rw [show ((':') : Char).toNat = 58 from rfl] at h
    omega
  have hC : ¬ d = '_' := fun he => by
    have h := congrArg Char.toNat he
    rw [show (('_') : Char).toNat = 95 from rfl] at h
    omega
  have hD : ¬ d = '.' := fun he => by
    have h := congrArg Char.toNat he
    rw [show (('.') : Char).toNat = 46 from rfl] at h
    omega
  unfold replaceNameChar
  rw [if_neg hA, if_neg hB, if_neg hC, if_neg hD]

theorem dns_of_toNat (d : Char)
    (h : (97 ≤ d.toNat ∧ d.toNat ≤ 122) ∨ (48 ≤ d.toNat ∧ d.toNat ≤ 57)) :
    isDNSChar d = true := by
  simp only [isDNSChar, Bool.or_eq_true, Bool.and_eq_true, decide_eq_true_eq]
  rcases h with ⟨h1, h2⟩ | ⟨h1, h2⟩
  · exact Or.inl (Or.inl ⟨h1, h2⟩)
  · exact Or.inl (Or.inr ⟨h1, h2⟩)

/-- Input characters from the safe set normalize to characters inside
[a-z0-9-]. -/
theorem nameInput_normalize (c : Char) (h : isNameInputChar c = true) :
    ∀ d ∈ replaceNameChar (Char.toLower c), isDNSChar d = true := by
  simp only [isNameInputChar, Bool.or_eq_true, Bool.and_eq_true, decide_eq_true_eq,
    beq_iff_eq] at h
  rcases h with ((((((⟨h1, h2⟩ | ⟨h1, h2⟩) | ⟨h1, h2⟩) | rfl) | rfl) | rfl) | rfl) | rfl
  · have hn1 : 97 ≤ c.toNat := h1
    have hn2 : c.toNat ≤ 122 := h2
    rw [toLower_eq_self c (by omega),
        replaceNameChar_eq_self c (by omega) (by omega) (by omega) (by omega)]
    intro d hd
    rw [List.mem_singleton] at hd
    subst hd
    exact dns_of_toNat _ (Or.inl ⟨hn1, hn2⟩)
  · have hn1 : 65 ≤ c.toNat := h1
    have hn2 : c.toNat ≤ 90 := h2
    rw [toLower_upper c hn1 hn2]
    have ht : (Char.ofNat (c.toNat + 32)).toNat = c.toNat + 32 :=
      toNat_ofNat_valid _ (by omega)
    rw [replaceNameChar_eq_self _ (by rw [ht]; omega) (by rw [ht]; omega)
        (by rw [ht]; omega) (by rw [ht]; omega)]
    intro d hd
    rw [List.mem_singleton] at hd
    subst hd
    exact dns_of_toNat _ (Or.inl ⟨by rw [ht]; omega, by rw [ht]; omega⟩)
  · have hn1 : 48 ≤ c.toNat := h1
    have hn2 : c.toNat ≤ 57 := h2
    rw [toLower_eq_self c (by omega),
        replaceNameChar_eq_self c (by omega) (by omega) (by omega) (by omega)]
    intro d hd
    rw [List.mem_singleton] at hd
    subst hd
    exact dns_of_toNat _ (Or.inr ⟨hn1, hn2⟩)
  · intro d hd
    rw [show replaceNameChar (Char.toLower '-') = ['-'] from rfl, List.mem_singleton] at hd
    subst hd
    decide
  · intro d hd
    rw [show replaceNameChar (Char.toLower '/') = ['-'] from rfl, List.mem_singleton] at hd
    subst hd
    decide
  · intro d hd
    rw [show replaceNameChar (Char.toLower '_') = ['-'] from rfl, List.mem_singleton] at hd
    subst hd
    decide
  · intro d hd
    rw [show replaceNameChar (Char.toLower '.') = ['-'] from rfl, List.mem_singleton] at hd
    subst hd
    decide
  · intro d hd
    rw [show replaceNameChar (Char.toLower ':') = ([] : List Char) from rfl] at hd
    exact absurd hd (List.not_mem_nil d)

/-! ### Shape of the generated name -/

theorem normalize_join_chars (o r f : String)
    (h : (o.data ++ r.data ++ f.data).all isNameInputChar = true) :
    ∀ x ∈ (normalizeBaseName (o ++ "-" ++ r ++ "-" ++ f)).data, isDNSChar x = true := by
  intro x hx
  have hdata : (o ++ "-" ++ r ++ "-" ++ f).data
      = o.data ++ ['-'] ++ r.data ++ ['-'] ++ f.data := rfl
  simp only [normalizeBaseName, hdata] at hx
  rw [List.mem_flatMap] at hx
  obtain ⟨lc, hlc, hxin⟩ := hx
  rw [List.mem_map] at hlc
  obtain ⟨c0, hc0, rfl⟩ := hlc
  apply nameInput_normalize c0 _ x hxin
  rw [List.all_eq_true] at h
  simp only [List.mem_append, List.mem_singleton] at hc0
  rcases hc0 with (((hc | hc) | hc) | hc) | hc
  · exact h c0 (by simp [List.mem_append, hc])
  · subst hc; decide
  · exact h c0 (by simp [List.mem_append, hc])
  · subst hc; decide
  · exact h c0 (by simp [List.mem_append, hc])

theorem normalize_join_length (o r f : String) :
    1 ≤ (normalizeBaseName (o ++ "-" ++ r ++ "-" ++ f)).data.length := by
  have hdata : (o ++ "-" ++ r ++ "-" ++ f).data
      = o.data ++ ['-'] ++ r.data ++ ['-'] ++ f.data := rfl
  simp only [normalizeBaseName, hdata]
  have hmid : (List.map Char.toLower ['-']).flatMap replaceNameChar = ['-'] := rfl
  rw [List.map_append, List.map_append, List.map_append, List.map_append,
      List.flatMap_append, List.flatMap_append, List.flatMap_append, List.flatMap_append,
      hmid]
  simp only [List.length_append, List.length_cons, List.length_nil]
  omega

theorem generateFromBase_format (b : String)
    (hchars : ∀ x ∈ b.data, isDNSChar x = true)
    (hlen1 : 1 ≤ b.data.length) :
    matchesNameFormat (generateFromBase b) = true := by
  have hdata := generateFromBase_data b
  have hHlen : ((hexEncode (sha256 (strBytes b))).data.take 8).length = 8 := by
    rw [List.length_take, hexEncode_data_length, sha256_length]
    omega
  have hblen : b.length = b.data.length := rfl
  have hTlen : (b.data.take (min b.length 23)).length = min b.data.length 23 := by
    rw [List.length_take, hblen]
    omega
  have hn : ((b.data.take (min b.length 23))
      ++ '-' :: (hexEncode (sha256 (strBytes b))).data.take 8).length
      = (b.data.take (min b.length 23)).length + 9 := by
    simp only [List.length_append, List.length_cons, hHlen]
  simp only [matchesNameFormat, Bool.and_eq_true, decide_eq_true_eq]
  rw [hdata, hn, hTlen]
  refine ⟨⟨⟨by omega, ?_⟩, ?_⟩, ?_⟩
  · have h9 : min b.data.length 23 + 9 - 9 = (b.data.take (min b.length 23)).length := by
      rw [hTlen]
      omega
    rw [h9, List.take_left]
    rw [List.all_eq_true]
    intro x hx
    exact hchars x (List.take_subset _ _ hx)
  · have h9 : min b.data.length 23 + 9 - 9 = (b.data.take (min b.length 23)).length := by
      rw [hTlen]
      omega
    rw [h9, List.getD_append_right _ _ _ _ (le_refl _), Nat.sub_self]
    rfl
  · have h8 : min b.data.length 23 + 9 - 8 = (b.data.take (min b.length 23)).length + 1 := by
      rw [hTlen]; omega
    rw [h8, show (b.data.take (min b.length 23))
          ++ '-' :: (hexEncode (sha256 (strBytes b))).data.take 8
        = ((b.data.take (min b.length 23)) ++ ['-'])
          ++ (hexEncode (sha256 (strBytes b))).data.take 8 by simp,
      List.drop_left' (by simp)]
    rw [List.all_eq_true]
    intro x hx
    exact hexEncode_chars _ (sha256_lt _) x (List.take_subset _ _ hx)

/-- C3 counterexample: the inputs "f@o", "bar", "ref" are ASCII, yet the
generated name keeps the '@' character (GenerateAppName applies no charset
filter), so the output does not match the claimed anchored expression of a
nonempty [a-z0-9-] run, a hyphen and 8 hex characters. -/
theorem generateAppName_format_counterexample :
    matchesNameFormat (GenerateAppName "f@o" "bar" "ref") = false := by decide

/-- C3 amended: for inputs made of ASCII letters, digits and the characters
handled by the normalization (- / _ . :), the GenerateAppName output has
length at most 32 and matches the anchored expression of a nonempty
[a-z0-9-] run, a hyphen and 8 lower-case hex characters.  (For general
ASCII inputs the match can fail, because no charset filter is applied.) -/
theorem generateAppName_format (repoOwner repo ref : String)
    (h : (repoOwner.data ++ repo.data ++ ref.data).all isNameInputChar = true) :
    matchesNameFormat (GenerateAppName repoOwner repo ref) = true ∧
    (GenerateAppName repoOwner repo ref).length ≤ 32 := by
  constructor
  · show matchesNameFormat (generateFromBase (normalizeBaseName _)) = true
    exact generateFromBase_format _ (normalize_join_chars repoOwner repo ref h)
      (normalize_join_length repoOwner repo ref)
  · show (GenerateAppName repoOwner repo ref).data.length <= 32
    unfold GenerateAppName
    rw [generateFromBase_data]
    simp only [List.length_append, List.length_cons, List.length_take]
    omega

/-- Witness for the amended C3 at the repository's own test input. -/
theorem generateAppName_format_witness :
    ("foo".data ++ "bar".data ++ "3/merge".data).all isNameInputChar = true ∧
    (matchesNameFormat (GenerateAppName "foo" "bar" "3/merge") = true ∧
     (GenerateAppName "foo" "bar" "3/merge").length <= 32) :=
  ⟨by decide, generateAppName_format "foo" "bar" "3/merge" (by decide)⟩

/-- C4 counterexample: the triples ("a/b","c","d") and ("a-b","c","d")
differ in their owner component, yet they normalize to the same base
string, so the two outputs - and in particular their 8-character hash
suffixes - are identical. -/
theorem generateAppName_suffix_counterexample :
    (("a/b", "c", "d") ≠ (("a-b" : String), ("c" : String), ("d" : String))) ∧
    appNameHashSuffix (GenerateAppName "a/b" "c" "d")
      = appNameHashSuffix (GenerateAppName "a-b" "c" "d") := by
  constructor
  · decide
  · have hbase : normalizeBaseName ("a/b" ++ "-" ++ "c" ++ "-" ++ "d")
        = normalizeBaseName ("a-b" ++ "-" ++ "c" ++ "-" ++ "d") := by decide
    exact congrArg (fun b => appNameHashSuffix (generateFromBase b)) hbase

/-- C4 amended: GenerateAppName is deterministic (equal input triples give
equal outputs), and the whole output - including the hash suffix - is a
function of the normalized base string alone, so distinct triples whose
normalized bases coincide share one output and one suffix; distinct
suffixes for distinct triples are only probabilistic, never guaranteed. -/
theorem generateAppName_deterministic (o1 r1 f1 o2 r2 f2 : String) :
    ((o1, r1, f1) = (o2, r2, f2) → GenerateAppName o1 r1 f1 = GenerateAppName o2 r2 f2) ∧
    (normalizeBaseName (o1 ++ "-" ++ r1 ++ "-" ++ f1)
       = normalizeBaseName (o2 ++ "-" ++ r2 ++ "-" ++ f2) →
     GenerateAppName o1 r1 f1 = GenerateAppName o2 r2 f2) := by
  constructor
  · intro h
    simp only [Prod.mk.injEq] at h
    obtain ⟨rfl, rfl, rfl⟩ := h
    rfl
  · intro h
    exact congrArg generateFromBase h

/-- Witness for the amended C4 at the counterexample's input pair. -/
theorem generateAppName_deterministic_witness :
    normalizeBaseName ("a/b" ++ "-" ++ "c" ++ "-" ++ "d")
      = normalizeBaseName ("a-b" ++ "-" ++ "c" ++ "-" ++ "d") ∧
    GenerateAppName "a/b" "c" "d" = GenerateAppName "a-b" "c" "d" :=
  ⟨by decide, (generateAppName_deterministic "a/b" "c" "d" "a-b" "c" "d").2 (by decide)⟩

theorem sanitize_prref_error (spec : AppSpec) (ctx : GitHubContext)
    (preserveDomains : Bool) (e : RefError)
    (h : PRRefFromContext ctx = Except.error e) :
    SanitizeSpecForPullRequestPreview spec ctx preserveDomains
      = (spec, some (SanitizeError.identityResolution e)) := by
  unfold SanitizeSpecForPullRequestPreview
  rw [h]

/-- C5: when PRRefFromContext fails on the context, the sanitizer returns
the identity-resolution error wrapping that failure and the specification
state is exactly the input specification - name, domains, alerts and all
four component lists untouched. -/
theorem sanitize_error_no_mutation (spec : AppSpec) (ctx : GitHubContext)
    (preserveDomains : Bool) (e : RefError)
    (h : PRRefFromContext ctx = Except.error e) :
    SanitizeSpecForPullRequestPreview spec ctx preserveDomains
      = (spec, some (SanitizeError.identityResolution e)) :=
  sanitize_prref_error spec ctx preserveDomains e h

/-- Witness for C5: an event without a pull_request object. -/
theorem sanitize_error_no_mutation_witness :
    PRRefFromContext noPRCtx = Except.error RefError.missingField ∧
    SanitizeSpecForPullRequestPreview testSpec noPRCtx false
      = (testSpec, some (SanitizeError.identityResolution RefError.missingField)) :=
  ⟨rfl, sanitize_error_no_mutation testSpec noPRCtx false RefError.missingField rfl⟩

/-- PRRefFromContext computed on a context whose event has the pull_request
object and a numeric number field. -/
theorem prRef_ok (ctx : GitHubContext) (pf : List (String × EventValue)) (n : Int)
    (h1 : lookupField ctx.event "pull_request" = some (EventValue.obj pf))
    (h2 : lookupField pf "number" = some (EventValue.num n)) :
    PRRefFromContext ctx = Except.ok (toString n ++ "/merge") := by
  unfold PRRefFromContext
  rw [h1]
  show (match lookupField pf "number" with
        | some (EventValue.num n) => Except.ok (toString n ++ "/merge")
        | _ => Except.error RefError.missingPRNumber) = _
  rw [h2]

theorem prRef_noNumber (ctx : GitHubContext) (pf : List (String × EventValue))
    (h1 : lookupField ctx.event "pull_request" = some (EventValue.obj pf))
    (h2 : ∀ n, lookupField pf "number" ≠ some (EventValue.num n)) :
    PRRefFromContext ctx = Except.error RefError.missingPRNumber := by
  unfold PRRefFromContext
  rw [h1]
  show (match lookupField pf "number" with
        | some (EventValue.num n) => Except.ok (toString n ++ "/merge")
        | _ => Except.error RefError.missingPRNumber) = _
  cases hn : lookupField pf "number" with
  | none => rfl
  | some w =>
      cases w with
      | num n => exact absurd hn (h2 n)
      | str s => rfl
      | obj l => rfl
      | other => rfl

theorem prRef_noObj (ctx : GitHubContext)
    (h1 : ∀ pf, lookupField ctx.event "pull_request" ≠ some (EventValue.obj pf)) :
    PRRefFromContext ctx = Except.error RefError.missingField := by
  unfold PRRefFromContext
  cases hp : lookupField ctx.event "pull_request" with
  | none => rfl
  | some v =>
      cases v with
      | obj pf => exact absurd hp (h1 pf)
      | num n => rfl
      | str s => rfl
      | other => rfl

/-- C6: PRRefFromContext fails with the missing-field kind exactly when the
event payload has no pull_request object, fails with the missing-number
kind exactly when that object exists but holds no numeric number field,
and on success returns "<n>/merge" for the truncated integer n. -/
theorem prRef_characterization (ctx : GitHubContext) :
    (∀ prFields n, lookupField ctx.event "pull_request" = some (EventValue.obj prFields) →
       lookupField prFields "number" = some (EventValue.num n) →
       PRRefFromContext ctx = Except.ok (toString n ++ "/merge")) ∧
    (PRRefFromContext ctx = Except.error RefError.missingField ↔
       ∀ prFields, lookupField ctx.event "pull_request" ≠ some (EventValue.obj prFields)) ∧
    (PRRefFromContext ctx = Except.error RefError.missingPRNumber ↔
       ∃ prFields, lookupField ctx.event "pull_request" = some (EventValue.obj prFields) ∧
         ∀ n, lookupField prFields "number" ≠ some (EventValue.num n)) := by
  refine ⟨fun pf n h1 h2 => prRef_ok ctx pf n h1 h2, ⟨?_, prRef_noObj ctx⟩, ⟨?_, ?_⟩⟩
  · intro h pf hc
    cases hn : lookupField pf "number" with
    | none =>
        rw [prRef_noNumber ctx pf hc (fun n hcc => by rw [hn] at hcc; cases hcc)] at h
        exact Except.noConfusion h fun h2 => RefError.noConfusion h2
    | some w =>
        cases w with
        | num n =>
            rw [prRef_ok ctx pf n hc hn] at h
            exact Except.noConfusion h
        | str s =>
            rw [prRef_noNumber ctx pf hc (fun n hcc => by rw [hn] at hcc; cases hcc)] at h
            exact Except.noConfusion h fun h2 => RefError.noConfusion h2
        | obj l =>
            rw [prRef_noNumber ctx pf hc (fun n hcc => by rw [hn] at hcc; cases hcc)] at h
            exact Except.noConfusion h fun h2 => RefError.noConfusion h2
        | other =>
            rw [prRef_noNumber ctx pf hc (fun n hcc => by rw [hn] at hcc; cases hcc)] at h
            exact Except.noConfusion h fun h2 => RefError.noConfusion h2
  · intro h
    cases hp : lookupField ctx.event "pull_request" with
    | none =>
        rw [prRef_noObj ctx (fun pf hc => by rw [hp] at hc; cases hc)] at h
        exact Except.noConfusion h fun h2 => RefError.noConfusion h2
    | some v =>
        cases v with
        | obj pf =>
            refine ⟨pf, rfl, fun n hn => ?_⟩
            rw [prRef_ok ctx pf n hp hn] at h
            exact Except.noConfusion h
        | num n =>
            rw [prRef_noObj ctx (fun pf hc => by rw [hp] at hc; cases hc)] at h
            exact Except.noConfusion h fun h2 => RefError.noConfusion h2
        | str s =>
            rw [prRef_noObj ctx (fun pf hc => by rw [hp] at hc; cases hc)] at h
            exact Except.noConfusion h fun h2 => RefError.noConfusion h2
        | other =>
            rw [prRef_noObj ctx (fun pf hc => by rw [hp] at hc; cases hc)] at h
            exact Except.noConfusion h fun h2 => RefError.noConfusion h2
  · rintro ⟨pf, hp, hn⟩
    exact prRef_noNumber ctx pf hp hn

/-- Witness for C6 at three concrete contexts: a well-formed event, an
event without pull_request, and an event whose number field is a string. -/
theorem prRef_characterization_witness :
    PRRefFromContext testCtx = Except.ok "3/merge" ∧
    PRRefFromContext noPRCtx = Except.error RefError.missingField ∧
    PRRefFromContext noNumberCtx = Except.error RefError.missingPRNumber := by
  refine ⟨?_, ?_, ?_⟩
  · exact (prRef_characterization testCtx).1 [("number", EventValue.num 3)] 3 rfl rfl
  · exact (prRef_characterization noPRCtx).2.1.mpr (by intro pf h; cases h)
  · exact (prRef_characterization noNumberCtx).2.2.mpr
      ⟨[("number", EventValue.str "3")], rfl, by intro n h; cases h⟩

/-! ### The component traversal always succeeds and maps sanitizeComponentF -/

theorem sanitizeComponent_eq (o r h : String) (c : AppComponentSpec) :
    sanitizeComponent o r h c = Except.ok (sanitizeComponentF o r h c) := by
  unfold sanitizeComponent sanitizeComponentF
  cases hg : c.github with
  | none => rfl
  | some ref =>
      show (if ref.repo ≠ o ++ "/" ++ r then Except.ok c
            else Except.ok ({ c with
              github := some ({ ref with deployOnPush := false, branch := h }) }))
          = Except.ok (if ref.repo ≠ o ++ "/" ++ r then c
            else { c with github := some ({ ref with deployOnPush := false, branch := h }) })
      split_ifs with hr <;> rfl

theorem sanitizeComponentF_none (o r h : String) (c : AppComponentSpec)
    (hg : c.github = none) : sanitizeComponentF o r h c = c := by
  unfold sanitizeComponentF
  rw [hg]

theorem sanitizeComponentF_other (o r h : String) (c : AppComponentSpec)
    (ref : GitHubSourceSpec) (hg : c.github = some ref)
    (hr : ref.repo ≠ o ++ "/" ++ r) : sanitizeComponentF o r h c = c := by
  unfold sanitizeComponentF
  rw [hg]
  show (if ref.repo ≠ o ++ "/" ++ r then c
        else { c with github := some ({ ref with deployOnPush := false, branch := h }) }) = c
  rw [if_pos hr]

theorem sanitizeComponentF_match (o r h : String) (c : AppComponentSpec)
    (ref : GitHubSourceSpec) (hg : c.github = some ref)
    (hr : ref.repo = o ++ "/" ++ r) :
    sanitizeComponentF o r h c
      = { c with github := some ({ ref with deployOnPush := false, branch := h }) } := by
  unfold sanitizeComponentF
  rw [hg]
  show (if ref.repo ≠ o ++ "/" ++ r then c
        else { c with github := some ({ ref with deployOnPush := false, branch := h }) }) = _
  rw [if_neg (not_not_intro hr)]

theorem componentSanitized_of_F (o r h : String) (c : AppComponentSpec) :
    componentSanitized o r h c (sanitizeComponentF o r h c) := by
  unfold componentSanitized
  cases hg : c.github with
  | none =>
      show sanitizeComponentF o r h c = c
      exact sanitizeComponentF_none o r h c hg
  | some ref =>
      show if ref.repo = o ++ "/" ++ r
          then ∃ ref', (sanitizeComponentF o r h c).github = some ref'
             ∧ ref'.deployOnPush = false ∧ ref'.branch = h
          else sanitizeComponentF o r h c = c
      by_cases hr : ref.repo = o ++ "/" ++ r
      · rw [if_pos hr, sanitizeComponentF_match o r h c ref hg hr]
        exact ⟨_, rfl, rfl, rfl⟩
      · rw [if_neg hr]
        exact sanitizeComponentF_other o r h c ref hg hr

theorem forall2_sanitized (o r h : String) (l : List AppComponentSpec) :
    List.Forall₂ (componentSanitized o r h) l (l.map (sanitizeComponentF o r h)) := by
  induction l with
  | nil => exact List.Forall₂.nil
  | cons c rest ih => exact List.Forall₂.cons (componentSanitized_of_F o r h c) ih

theorem mapM_ok (f : AppComponentSpec → Except String AppComponentSpec)
    (g : AppComponentSpec → AppComponentSpec)
    (hf : ∀ c, f c = Except.ok (g c)) (l : List AppComponentSpec) :
    l.mapM f = Except.ok (l.map g) := by
  induction l with
  | nil => rfl
  | cons c rest ih =>
      rw [List.mapM_cons, hf, ih]
      rfl

theorem forEachComponents_ok (f : AppComponentSpec → Except String AppComponentSpec)
    (g : AppComponentSpec → AppComponentSpec)
    (hf : ∀ c, f c = Except.ok (g c)) (spec : AppSpec) :
    forEachComponents f spec = Except.ok
      { spec with services := spec.services.map g, workers := spec.workers.map g,
                  jobs := spec.jobs.map g, functions := spec.functions.map g } := by
  unfold forEachComponents
  rw [mapM_ok f g hf, mapM_ok f g hf, mapM_ok f g hf, mapM_ok f g hf]
  rfl

theorem subst_eq (s : AppSpec) (ctx : GitHubContext) :
    SubstituteDomainTokens s ctx = Except.ok (substF s ctx) := by
  unfold SubstituteDomainTokens substF
  cases hd : s.domains with
  | none => rfl
  | some ds => rfl

/-! ### The three success shapes of the sanitizer -/

theorem sanitize_ok_false (spec : AppSpec) (ctx : GitHubContext) (prRef : String)
    (hpr : PRRefFromContext ctx = Except.ok prRef) :
    SanitizeSpecForPullRequestPreview spec ctx false =
      ({ name := GenerateAppName ctx.repoOwner ctx.repo prRef,
         domains := none,
         alerts := none,
         services := spec.services.map (sanitizeComponentF ctx.repoOwner ctx.repo ctx.headRef),
         workers := spec.workers.map (sanitizeComponentF ctx.repoOwner ctx.repo ctx.headRef),
         jobs := spec.jobs.map (sanitizeComponentF ctx.repoOwner ctx.repo ctx.headRef),
         functions := spec.functions.map (sanitizeComponentF ctx.repoOwner ctx.repo ctx.headRef) },
       none) := by
  unfold SanitizeSpecForPullRequestPreview
  simp only [hpr]
  rw [forEachComponents_ok (sanitizeComponent ctx.repoOwner ctx.repo ctx.headRef)
      (sanitizeComponentF ctx.repoOwner ctx.repo ctx.headRef)
      (sanitizeComponent_eq ctx.repoOwner ctx.repo ctx.headRef)]
  rfl

theorem sanitize_ok_true_nodomains (spec : AppSpec) (ctx : GitHubContext) (prRef : String)
    (hpr : PRRefFromContext ctx = Except.ok prRef) (hd : spec.domains = none) :
    SanitizeSpecForPullRequestPreview spec ctx true =
      ({ name := GenerateAppName ctx.repoOwner ctx.repo prRef,
         domains := none,
         alerts := none,
         services := spec.services.map (sanitizeComponentF ctx.repoOwner ctx.repo ctx.headRef),
         workers := spec.workers.map (sanitizeComponentF ctx.repoOwner ctx.repo ctx.headRef),
         jobs := spec.jobs.map (sanitizeComponentF ctx.repoOwner ctx.repo ctx.headRef),
         functions := spec.functions.map (sanitizeComponentF ctx.repoOwner ctx.repo ctx.headRef) },
       none) := by
  unfold SanitizeSpecForPullRequestPreview
  simp only [hpr, hd]
  rw [forEachComponents_ok (sanitizeComponent ctx.repoOwner ctx.repo ctx.headRef)
      (sanitizeComponentF ctx.repoOwner ctx.repo ctx.headRef)
      (sanitizeComponent_eq ctx.repoOwner ctx.repo ctx.headRef)]
  rfl

theorem sanitize_ok_true_domains (spec : AppSpec) (ctx : GitHubContext) (prRef : String)
    (ds : List AppDomainSpec)
    (hpr : PRRefFromContext ctx = Except.ok prRef) (hd : spec.domains = some ds) :
    SanitizeSpecForPullRequestPreview spec ctx true =
      ({ name := GenerateAppName ctx.repoOwner ctx.repo prRef,
         domains := some (ds.map fun d =>
           { domain := replaceAllTokens (sanitizeBranchForDomain ctx.headRef)
               (prNumberString ctx) ctx.repo ctx.repoOwner d.domain }),
         alerts := none,
         services := spec.services.map (sanitizeComponentF ctx.repoOwner ctx.repo ctx.headRef),
         workers := spec.workers.map (sanitizeComponentF ctx.repoOwner ctx.repo ctx.headRef),
         jobs := spec.jobs.map (sanitizeComponentF ctx.repoOwner ctx.repo ctx.headRef),
         functions := spec.functions.map (sanitizeComponentF ctx.repoOwner ctx.repo ctx.headRef) },
       none) := by
  unfold SanitizeSpecForPullRequestPreview
  simp only [hpr, hd]
  rw [forEachComponents_ok (sanitizeComponent ctx.repoOwner ctx.repo ctx.headRef)
      (sanitizeComponentF ctx.repoOwner ctx.repo ctx.headRef)
      (sanitizeComponent_eq ctx.repoOwner ctx.repo ctx.headRef)]
  rfl

/-- C2: after a successful sanitization, every buildable component of the
services, workers, jobs and functions lists relates to its input
counterpart as follows: a component whose GitHub reference names exactly
"<owner>/<repo>" comes out with deployOnPush = false and branch equal to
the literal headRef; a component with a different repo string, or without
a GitHub reference, is returned entirely unchanged. -/
theorem sanitize_components (spec : AppSpec) (ctx : GitHubContext) (b : Bool)
    (spec' : AppSpec)
    (h : SanitizeSpecForPullRequestPreview spec ctx b = (spec', none)) :
    List.Forall₂ (componentSanitized ctx.repoOwner ctx.repo ctx.headRef)
        spec.services spec'.services ∧
    List.Forall₂ (componentSanitized ctx.repoOwner ctx.repo ctx.headRef)
        spec.workers spec'.workers ∧
    List.Forall₂ (componentSanitized ctx.repoOwner ctx.repo ctx.headRef)
        spec.jobs spec'.jobs ∧
    List.Forall₂ (componentSanitized ctx.repoOwner ctx.repo ctx.headRef)
        spec.functions spec'.functions := by
  cases hpr : PRRefFromContext ctx with
  | error e =>
      rw [sanitize_prref_error spec ctx b e hpr] at h
      exact Option.noConfusion (congrArg Prod.snd h)
  | ok prRef =>
      cases b with
      | false =>
          rw [sanitize_ok_false spec ctx prRef hpr] at h
          have hx := congrArg Prod.fst h
          subst hx
          exact ⟨forall2_sanitized _ _ _ _, forall2_sanitized _ _ _ _,
                 forall2_sanitized _ _ _ _, forall2_sanitized _ _ _ _⟩
      | true =>
          cases hd : spec.domains with
          | none =>
              rw [sanitize_ok_true_nodomains spec ctx prRef hpr hd] at h
              have hx := congrArg Prod.fst h
              subst hx
              exact ⟨forall2_sanitized _ _ _ _, forall2_sanitized _ _ _ _,
                     forall2_sanitized _ _ _ _, forall2_sanitized _ _ _ _⟩
          | some ds =>
              rw [sanitize_ok_true_domains spec ctx prRef ds hpr hd] at h
              have hx := congrArg Prod.fst h
              subst hx
              exact ⟨forall2_sanitized _ _ _ _, forall2_sanitized _ _ _ _,
                     forall2_sanitized _ _ _ _, forall2_sanitized _ _ _ _⟩

/-- Witness for C2 at the repository's own test fixture. -/
theorem sanitize_components_witness :
    SanitizeSpecForPullRequestPreview testSpec testCtx false = (sanitizedTestSpec, none) ∧
    (List.Forall₂ (componentSanitized testCtx.repoOwner testCtx.repo testCtx.headRef)
        testSpec.services sanitizedTestSpec.services ∧
     List.Forall₂ (componentSanitized testCtx.repoOwner testCtx.repo testCtx.headRef)
        testSpec.workers sanitizedTestSpec.workers ∧
     List.Forall₂ (componentSanitized testCtx.repoOwner testCtx.repo testCtx.headRef)
        testSpec.jobs sanitizedTestSpec.jobs ∧
     List.Forall₂ (componentSanitized testCtx.repoOwner testCtx.repo testCtx.headRef)
        testSpec.functions sanitizedTestSpec.functions) :=
  ⟨by decide, sanitize_components testSpec testCtx false sanitizedTestSpec (by decide)⟩

/-! ### Idempotence machinery -/

theorem sanitizeComponentF_idem (o r h : String) (c : AppComponentSpec) :
    sanitizeComponentF o r h (sanitizeComponentF o r h c) = sanitizeComponentF o r h c := by
  cases hg : c.github with
  | none => rw [sanitizeComponentF_none o r h c hg, sanitizeComponentF_none o r h c hg]
  | some ref =>
      by_cases hr : ref.repo = o ++ "/" ++ r
      · rw [sanitizeComponentF_match o r h c ref hg hr]
        exact sanitizeComponentF_match o r h _ ({ ref with deployOnPush := false, branch := h }) rfl hr
      · rw [sanitizeComponentF_other o r h c ref hg hr,
            sanitizeComponentF_other o r h c ref hg hr]

theorem map_F_idem (o r h : String) (l : List AppComponentSpec) :
    (l.map (sanitizeComponentF o r h)).map (sanitizeComponentF o r h)
      = l.map (sanitizeComponentF o r h) := by
  rw [List.map_map]
  exact List.map_congr_left fun c _ => sanitizeComponentF_idem o r h c

/-- C7 counterexample: both sanitization runs succeed with
preserveDomains = true, but because the owner string of the context is
itself the token literal "\x7bREPO}", the second run substitutes the
already-substituted domain once more and yields a different spec. -/
theorem sanitize_idempotent_counterexample :
    (SanitizeSpecForPullRequestPreview retokenSpec retokenCtx true).2 = none ∧
    (SanitizeSpecForPullRequestPreview
        (SanitizeSpecForPullRequestPreview retokenSpec retokenCtx true).1 retokenCtx true).2
      = none ∧
    (SanitizeSpecForPullRequestPreview
        (SanitizeSpecForPullRequestPreview retokenSpec retokenCtx true).1 retokenCtx true).1
      ≠ (SanitizeSpecForPullRequestPreview retokenSpec retokenCtx true).1 := by
  decide

/-- C7 amended: when preserveDomains is false, sanitization is idempotent:
if a run succeeds, re-running on its result with the same context and flag
succeeds and returns that result unchanged.  (With preserveDomains = true,
a second run can substitute domain tokens again - values substituted by the
first run may themselves contain token literals - so idempotence can fail;
see the counterexample.) -/
theorem sanitize_idempotent_false (spec : AppSpec) (ctx : GitHubContext) (spec' : AppSpec)
    (h : SanitizeSpecForPullRequestPreview spec ctx false = (spec', none)) :
    SanitizeSpecForPullRequestPreview spec' ctx false = (spec', none) := by
  cases hpr : PRRefFromContext ctx with
  | error e =>
      rw [sanitize_prref_error spec ctx false e hpr] at h
      exact Option.noConfusion (congrArg Prod.snd h)
  | ok prRef =>
      rw [sanitize_ok_false spec ctx prRef hpr] at h
      have hx := congrArg Prod.fst h
      subst hx
      rw [sanitize_ok_false _ ctx prRef hpr]
      simp only [map_F_idem]

/-- Witness for the amended C7 at the repository's own test fixture. -/
theorem sanitize_idempotent_false_witness :
    SanitizeSpecForPullRequestPreview testSpec testCtx false = (sanitizedTestSpec, none) ∧
    SanitizeSpecForPullRequestPreview sanitizedTestSpec testCtx false
      = (sanitizedTestSpec, none) :=
  ⟨by decide, sanitize_idempotent_false testSpec testCtx sanitizedTestSpec (by decide)⟩

/-- C8: SubstituteDomainTokens rewrites every domain string in place by a
single left-to-right pass replacing the four token literals with the
DNS-sanitized branch, the decimal PR number (empty when absent, not an
error), the repo and the owner; emitted replacement text is never
rescanned.  Concretely: the spec example resolves as claimed, a value that
is itself a token literal survives one pass unsubstituted, and a missing
PR number substitutes the empty string. -/
theorem substitute_domain_tokens_spec (spec : AppSpec) (ctx : GitHubContext)
    (ds : List AppDomainSpec) (hd : spec.domains = some ds) :
    (SubstituteDomainTokens spec ctx = Except.ok
      { spec with domains := some (ds.map fun d =>
          { domain := replaceAllTokens (sanitizeBranchForDomain ctx.headRef)
              (prNumberString ctx) ctx.repo ctx.repoOwner d.domain }) }) ∧
    SubstituteDomainTokens tokenSpec tokenCtx = Except.ok
      { tokenSpec with domains := some [⟨"feature-test-1-0.foo-bar.example.com"⟩] } ∧
    SubstituteDomainTokens retokenSpec retokenCtx = Except.ok
      { retokenSpec with domains := some [⟨"{REPO}"⟩] } ∧
    (prNumberString noPRCtx = "" ∧
     SubstituteDomainTokens prNumSpec noPRCtx = Except.ok
       { prNumSpec with domains := some [⟨"x"⟩] }) := by
  refine ⟨?_, rfl, rfl, rfl, rfl⟩
  unfold SubstituteDomainTokens
  rw [hd]

/-- Witness for C8 at the spec's token-substitution example. -/
theorem substitute_domain_tokens_spec_witness :
    tokenSpec.domains = some [⟨"{BRANCH}.{OWNER}-{REPO}.example.com"⟩] ∧
    SubstituteDomainTokens tokenSpec tokenCtx = Except.ok
      { name := tokenSpec.name,
        domains := some ([(⟨"{BRANCH}.{OWNER}-{REPO}.example.com"⟩ : AppDomainSpec)].map fun d =>
          { domain := replaceAllTokens (sanitizeBranchForDomain tokenCtx.headRef)
              (prNumberString tokenCtx) tokenCtx.repo tokenCtx.repoOwner d.domain }),
        alerts := tokenSpec.alerts, services := tokenSpec.services,
        workers := tokenSpec.workers, jobs := tokenSpec.jobs,
        functions := tokenSpec.functions } :=
  ⟨rfl, (substitute_domain_tokens_spec tokenSpec tokenCtx
      [⟨"{BRANCH}.{OWNER}-{REPO}.example.com"⟩] rfl).1⟩

/-- C9: the branch sanitization used for the BRANCH token equals, on every
input, the spec-described pipeline - lower-case; replace / _ . with -;
remove every character outside [a-z0-9-]; truncate to 63 characters; only
then trim leading and trailing hyphens - it is total, and its result never
exceeds 63 characters. -/
theorem sanitize_branch_refines_spec (s : String) :
    sanitizeBranchForDomain s = specSanitizeBranch s ∧
    (sanitizeBranchForDomain s).length ≤ 63 := by
  have hrep : replaceDomainChar = (fun c => if c = '/' ∨ c = '_' ∨ c = '.' then '-' else c) := by
    funext c
    unfold replaceDomainChar
    by_cases h1 : c = '/' <;> by_cases h2 : c = '_' <;> by_cases h3 : c = '.' <;> simp_all
  have htrunc : ∀ l : List Char, (if l.length > 63 then l.take 63 else l) = l.take 63 := by
    intro l
    split_ifs with h
    · rfl
    · rw [List.take_of_length_le (by omega)]
  have htrim : ∀ l : List Char, (trimHyphens l).length ≤ l.length := by
    intro l
    unfold trimHyphens
    have h1 := (List.dropWhile_sublist (l := l) (fun c => c == '-')).length_le
    have h2 := (List.dropWhile_sublist
      (l := (l.dropWhile (fun c => c == '-')).reverse) (fun c => c == '-')).length_le
    simp only [List.length_reverse] at *
    omega
  constructor
  · unfold sanitizeBranchForDomain specSanitizeBranch
    simp only [hrep, htrunc]
  · have hgen : ∀ l : List Char,
        (String.mk (trimHyphens (if l.length > 63 then l.take 63 else l))).length ≤ 63 := by
      intro l
      show (trimHyphens (if l.length > 63 then l.take 63 else l)).length ≤ 63
      refine le_trans (htrim _) ?_
      rw [htrunc, List.length_take]
      omega
    exact hgen _

/-- The sanitizer's result carries no error whenever PRRefFromContext
succeeds, whatever the flag and the domain list. -/
theorem sanitize_ok_snd (spec : AppSpec) (ctx : GitHubContext) (b : Bool) (prRef : String)
    (hpr : PRRefFromContext ctx = Except.ok prRef) :
    (SanitizeSpecForPullRequestPreview spec ctx b).2 = none := by
  cases b with
  | false => rw [sanitize_ok_false spec ctx prRef hpr]
  | true =>
      cases hd : spec.domains with
      | none => rw [sanitize_ok_true_nodomains spec ctx prRef hpr hd]
      | some ds => rw [sanitize_ok_true_domains spec ctx prRef ds hpr hd]

/-- C10: the sanitizer returns an error exactly when PRRefFromContext
fails (and then the identity-resolution wrapper around that failure); the
component-traversal and token-substitution error branches are dead,
because the per-component callback and SubstituteDomainTokens return ok
on every path. -/
theorem sanitize_error_iff (spec : AppSpec) (ctx : GitHubContext) (b : Bool) :
    ((SanitizeSpecForPullRequestPreview spec ctx b).2.isSome = true ↔
       ∃ e, PRRefFromContext ctx = Except.error e) ∧
    (∀ e, PRRefFromContext ctx = Except.error e →
       (SanitizeSpecForPullRequestPreview spec ctx b).2
         = some (SanitizeError.identityResolution e)) ∧
    (∀ msg, (SanitizeSpecForPullRequestPreview spec ctx b).2
         ≠ some (SanitizeError.componentTraversal msg)) ∧
    (∀ msg, (SanitizeSpecForPullRequestPreview spec ctx b).2
         ≠ some (SanitizeError.tokenSubstitution msg)) ∧
    (∀ c, sanitizeComponent ctx.repoOwner ctx.repo ctx.headRef c
         = Except.ok (sanitizeComponentF ctx.repoOwner ctx.repo ctx.headRef c)) ∧
    (∀ s, SubstituteDomainTokens s ctx = Except.ok (substF s ctx)) := by
  cases hpr : PRRefFromContext ctx with
  | error e =>
      have hs := sanitize_prref_error spec ctx b e hpr
      refine ⟨?_, ?_, ?_, ?_, fun c => sanitizeComponent_eq _ _ _ c, fun t => subst_eq t ctx⟩
      · rw [hs]
        exact iff_of_true rfl ⟨e, rfl⟩
      · intro e' he'
        injection he' with h2
        subst h2
        rw [hs]
      · intro msg hcontra
        rw [hs] at hcontra
        exact SanitizeError.noConfusion (Option.some.inj hcontra)
      · intro msg hcontra
        rw [hs] at hcontra
        exact SanitizeError.noConfusion (Option.some.inj hcontra)
  | ok prRef =>
      have hs := sanitize_ok_snd spec ctx b prRef hpr
      refine ⟨?_, ?_, ?_, ?_, fun c => sanitizeComponent_eq _ _ _ c, fun t => subst_eq t ctx⟩
      · rw [hs]
        refine iff_of_false (by simp) ?_
        rintro ⟨e, he⟩
        exact Except.noConfusion he
      · intro e he
        exact Except.noConfusion he
      · intro msg hcontra
        rw [hs] at hcontra
        exact Option.noConfusion hcontra
      · intro msg hcontra
        rw [hs] at hcontra
        exact Option.noConfusion hcontra

/-- Witness for C10: the failing context yields exactly the
identity-resolution error, and the well-formed context yields no error. -/
theorem sanitize_error_iff_witness :
    (SanitizeSpecForPullRequestPreview testSpec noPRCtx true).2
      = some (SanitizeError.identityResolution RefError.missingField) ∧
    (SanitizeSpecForPullRequestPreview testSpec testCtx true).2 = none := by
  constructor
  · exact (sanitize_error_iff testSpec noPRCtx true).2.1 RefError.missingField rfl
  · have h1 := (sanitize_error_iff testSpec testCtx true).1
    rw [← Option.not_isSome_iff_eq_none]
    intro hh
    obtain ⟨e, he⟩ := h1.mp hh
    rw [show PRRefFromContext testCtx = Except.ok "3/merge" from rfl] at he
    exact Except.noConfusion he

end AppAction
